import Mathlib

/-!
# Verification of the mullvad-compass ICMP ping core

Shallow embedding of the concurrent ping engine of `Ch00k/mullvad-compass`
(`internal/ping`: the socket manager, probe issuer and worker-pool dispatcher)
together with the parts of the Go standard library its behaviour depends on
(`net.ParseIP`, `sync.Map`, `sync/atomic.Int32`, buffered-channel `select`).

Each definition is translated from the corresponding Go source; comments cite
the file and function it embeds.  Machine integers are modelled as `Int`/`Nat`
with explicit wrapping where the Go code can overflow (the 32-bit sequence
counter), durations as natural numbers of microseconds, and `float64`
latencies as rationals (the code computes `float64(µs)/1000.0`, an exact
division in the model).
-/

set_option maxRecDepth 4000

namespace MullvadCompass

/-! ## Data model (internal/relays/types.go) -/

/-- Embedding of `relays.IPVersion` (types.go line 48): `IPv4 = iota; IPv6`. -/
inductive IPVersion
  | IPv4
  | IPv6
deriving DecidableEq, Repr

/-- Embedding of `IPVersion.IsIPv6` (types.go line 68): `return v == IPv6`. -/
def IPVersion.IsIPv6 : IPVersion → Bool
  | .IPv4 => false
  | .IPv6 => true

/-- Embedding of `relays.Location` (types.go lines 110-124).  `float64`
fields are modelled as `ℚ`, pointer-to-float fields (`Latency`,
`DistanceFromMyLocation`) as `Option ℚ` (`nil` = `none`).  The Go field
`Type` is rendered `LocType` because `Type` is a Lean keyword. -/
structure Location where
  IPv4Address : String
  IPv6Address : String
  Country : String
  Latitude : ℚ
  Longitude : ℚ
  Hostname : String
  LocType : String
  City : String
  IsActive : Bool
  IsMullvadOwned : Bool
  Provider : String
  Latency : Option ℚ
  DistanceFromMyLocation : Option ℚ
deriving DecidableEq, Repr

/-! ## `net.ParseIP` (Go standard library)

The probe issuer calls `net.ParseIP` (part_001 line 149).  Go 1.21+
implements it as `netip.ParseAddr` followed by a zone rejection and `As16`
normalisation, so every successful parse yields a canonical 16-byte address
(IPv4 addresses in their 4-in-6 mapped form).  The parsers below are
translated from `net/netip`'s `parseIPv4` / `parseIPv6`; an address is a
list of 16 byte values. -/

/-- A parsed IP address: the canonical 16-byte form (`netip.Addr.As16`). -/
abbrev IPBytes := List Nat

/-- Field scanner of `netip.parseIPv4Fields`: walks the characters keeping
the current field value `val`, the number of digits seen in the current
field `digLen`, the number of completed fields `pos`, and the completed
fields.  Rejects leading zeros, values above 255, empty fields, and
anything other than digits and dots. -/
def parseIPv4Fields : List Char → Nat → Nat → Nat → List Nat → Option (List Nat)
  | [], val, digLen, pos, fields =>
      -- end of input: the final field must be non-empty and be the fourth
      if digLen = 0 then none
      else if pos < 3 then none
      else some (fields ++ [val])
  | c :: rest, val, digLen, pos, fields =>
      if '0' ≤ c ∧ c ≤ '9' then
        -- `IPv4 field has octet with leading zero`
        if digLen = 1 ∧ val = 0 then none
        else
          let val' := val * 10 + (c.toNat - '0'.toNat)
          -- `IPv4 field has value >255`
          if 255 < val' then none
          else parseIPv4Fields rest val' (digLen + 1) pos fields
      else if c = '.' then
        -- `.1.2.3`, `1..2.3`, `1.2.3.` are forbidden; at most 4 fields
        if digLen = 0 then none
        else if pos = 3 then none
        else parseIPv4Fields rest 0 0 (pos + 1) (fields ++ [val])
      else none

/-- `netip.parseIPv4`: the four dotted-decimal fields of an IPv4 literal. -/
def parseIPv4Core (s : List Char) : Option (List Nat) :=
  parseIPv4Fields s 0 0 0 []

/-- The canonical 16-byte form of an IPv4 address (`Addr.As16` of an
IPv4 `netip.Addr`): the 4-in-6 mapped prefix `::ffff:` plus the 4 bytes. -/
def v4Mapped (fields : List Nat) : IPBytes :=
  [0, 0, 0, 0, 0, 0, 0, 0, 0, 0, 255, 255] ++ fields

/-- An IPv4 literal parsed to its canonical 16-byte form. -/
def parseIPv4 (s : List Char) : Option IPBytes :=
  (parseIPv4Core s).map v4Mapped

/-- Hex digit test of `netip.parseIPv6`'s inner scanner. -/
def isHexChar (c : Char) : Bool :=
  ('0' ≤ c ∧ c ≤ '9') ∨ ('a' ≤ c ∧ c ≤ 'f') ∨ ('A' ≤ c ∧ c ≤ 'F')

/-- Value of a hex digit. -/
def hexVal (c : Char) : Nat :=
  if '0' ≤ c ∧ c ≤ '9' then c.toNat - '0'.toNat
  else if 'a' ≤ c ∧ c ≤ 'f' then c.toNat - 'a'.toNat + 10
  else c.toNat - 'A'.toNat + 10

/-- Inner hex-field scanner of `netip.parseIPv6`: consumes leading hex
digits, accumulating the field value; fails (like Go, with
`IPv6 field has value >=2^16`) if the accumulated value exceeds 0xffff.
Returns the value, the number of digits consumed, and the rest. -/
def scanHexField : List Char → Nat → Nat → Option (Nat × Nat × List Char)
  | [], acc, off => some (acc, off, [])
  | c :: rest, acc, off =>
      if isHexChar c then
        let acc' := acc * 16 + hexVal c
        if 65535 < acc' then none
        else scanHexField rest acc' (off + 1)
      else some (acc, off, c :: rest)

/-- End-of-parse bookkeeping of `netip.parseIPv6`: the entire input must
have been consumed; a short address needs an ellipsis, which expands to the
missing zero bytes at its recorded position; a full 16-byte address must
not also contain an ellipsis (`::` must cover at least one zero group). -/
def finishIPv6 (s : List Char) (ip : IPBytes) (ellipsis : Option Nat) :
    Option IPBytes :=
  if s ≠ [] then none
  else if ip.length < 16 then
    match ellipsis with
    | none => none
    | some e => some (ip.take e ++ List.replicate (16 - ip.length) 0 ++ ip.drop e)
  else if ellipsis.isSome then none
  else some ip

/-- Main loop of `netip.parseIPv6`, parsing colon-separated hex fields.
`ip` holds the bytes parsed so far and `ellipsis` the byte position of a
`::`, if seen.  Each iteration appends at least two bytes and the loop runs
only while fewer than 16 bytes are present, so 9 units of fuel are never
exhausted.  An embedded IPv4 suffix (`a:b::1.2.3.4`) re-parses the rest of
the input with the IPv4 parser, exactly as Go does. -/
def parseIPv6Loop : Nat → List Char → IPBytes → Option Nat → Option IPBytes
  | 0, _, _, _ => none
  | fuel + 1, s, ip, ellipsis =>
    if 16 ≤ ip.length then finishIPv6 s ip ellipsis
    else
      match scanHexField s 0 0 with
      | none => none
      | some (acc, off, rest) =>
        -- `each colon-separated field must have at least one digit`
        if off = 0 then none
        else
          match rest with
          | '.' :: _ =>
              -- trailing embedded IPv4 must occupy the final 4 bytes
              if ellipsis = none ∧ ip.length ≠ 12 then none
              else if 16 < ip.length + 4 then none
              else
                match parseIPv4Core s with
                | none => none
                | some b4 => finishIPv6 [] (ip ++ b4) ellipsis
          | _ =>
            let ip' := ip ++ [acc / 256, acc % 256]
            match rest with
            | [] => finishIPv6 [] ip' ellipsis
            | [':'] => none  -- `colon must be followed by more characters`
            | ':' :: ':' :: rest2 =>
                -- a `::`: only one allowed; may end the string
                if ellipsis.isSome then none
                else if rest2 = [] then finishIPv6 [] ip' (some ip'.length)
                else parseIPv6Loop fuel rest2 ip' (some ip'.length)
            | ':' :: rest2 => parseIPv6Loop fuel rest2 ip' ellipsis
            | _ => none  -- `unexpected character, want colon`

/-- `netip.parseIPv6` without zone handling.  `net.ParseIP` rejects every
address with a non-empty zone, and `netip` rejects an empty zone, so for
the purposes of `net.ParseIP` any `%` in the input means failure. -/
def parseIPv6 (s : List Char) : Option IPBytes :=
  if s.contains '%' then none
  else
    match s with
    | ':' :: ':' :: rest =>
        -- leading `::`; alone it is the unspecified address
        if rest = [] then some (List.replicate 16 0)
        else parseIPv6Loop 9 rest [] (some 0)
    | _ => parseIPv6Loop 9 s [] none

/-- Embedding of `net.ParseIP` (as in Go 1.21+: `netip.ParseAddr` plus zone
rejection, result normalised with `As16`).  The top-level scan dispatches on
the first `.`, `:` or `%` encountered, exactly as `netip.ParseAddr` does. -/
def ParseIP (s : String) : Option IPBytes :=
  let rec dispatch : List Char → Option IPBytes
    | [] => none
    | c :: rest =>
        if c = '.' then parseIPv4 s.toList
        else if c = ':' then parseIPv6 s.toList
        else if c = '%' then none
        else dispatch rest
  dispatch s.toList

/-- `net.IP.Equal` on two canonical 16-byte addresses is plain equality
(Go's `Equal` normalises 4-byte and 4-in-6 forms before comparing; every
address in the model is already in `As16` form). -/
def ipEqual (a b : IPBytes) : Bool := a = b

/-! ## `sync.Map` (the in-flight probe table)

`socketManager.inFlight` is a `sync.Map` from sequence numbers to response
channels (part_001 line 31).  Modelled as an association list with unique
keys, channels referenced by id.  `Store` overwrites, `Delete` of an absent
key is a no-op, `LoadAndDelete` is an atomic lookup-and-remove. -/

/-- The in-flight table: sequence number to channel id, keys unique. -/
abbrev SyncMap := List (Int × Nat)

/-- `sync.Map.Delete`: removes the entry for `k` if present, else no-op. -/
def smDelete (m : SyncMap) (k : Int) : SyncMap :=
  m.filter (fun p => p.1 != k)

/-- `sync.Map.Load`: the value stored for `k`, if any. -/
def smFind (m : SyncMap) (k : Int) : Option Nat :=
  (m.find? (fun p => p.1 == k)).map (·.2)

/-- `sync.Map.Store`: inserts or overwrites the entry for `k`. -/
def smStore (m : SyncMap) (k : Int) (v : Nat) : SyncMap :=
  (k, v) :: smDelete m k

/-- `sync.Map.LoadAndDelete`: atomically removes and returns the entry. -/
def smLoadAndDelete (m : SyncMap) (k : Int) : Option Nat × SyncMap :=
  (smFind m k, smDelete m k)

/-! ## Sequence-number allocation (part_001 lines 67-70)

`seqCounter` is an `atomic.Int32`; `Add(1)` wraps modulo 2^32 in two's
complement and `int(...)` sign-extends the result. -/

/-- Two's-complement wrap of an integer to the `int32` range. -/
def int32wrap (n : Int) : Int := (n + 2 ^ 31) % 2 ^ 32 - 2 ^ 31

/-- Embedding of `socketManager.allocateSeq`: `int(m.seqCounter.Add(1))`.
Returns the new counter value, which is also the allocated sequence. -/
def allocateSeq (counter : Int) : Int := int32wrap (counter + 1)

/-! ## The probe channel and Go `select` semantics

`respChan` is a buffered channel of capacity one (part_001 line 158).  The
reader delivers with `select { case ch <- resp: default: }` (lines
137-141).  Per the Go specification, a send on a closed channel "proceeds
by causing a run-time panic", so in a `select` that case counts as ready
and is chosen over `default`; only when the send cannot proceed (open
channel, full buffer) is `default` taken. -/

/-- A capacity-one Go channel carrying a reply's peer address. -/
structure ProbeChan where
  closed : Bool
  buf : Option IPBytes
deriving DecidableEq, Repr

/-- What the reader's non-blocking delivery did. -/
inductive SendOutcome
  | delivered
  | defaulted
  | panicked
deriving DecidableEq, Repr

/-- `select { case ch <- v: default: }` on a capacity-one channel:
closed channel → the send case is ready and panics; full buffer → the send
cannot proceed, `default` runs; otherwise the value is buffered. -/
def selectTrySend (c : ProbeChan) (v : IPBytes) : SendOutcome × ProbeChan :=
  if c.closed then (.panicked, c)
  else
    match c.buf with
    | some _ => (.defaulted, c)
    | none => (.delivered, { c with buf := some v })

/-- `close(ch)`. -/
def closeChan (c : ProbeChan) : ProbeChan := { c with closed := true }

/-- One routing step of `socketManager.reader` (part_001 lines 134-142)
for an inbound echo reply carrying sequence `seq` from sender `peer`:
`LoadAndDelete` the in-flight entry; if absent, discard; otherwise perform
the non-blocking delivery on the channel found.  `chans` maps channel ids
to channel states. -/
def readerRoute (m : SyncMap) (chans : Nat → ProbeChan) (seq : Int)
    (peer : IPBytes) : SyncMap × Option (Nat × SendOutcome × ProbeChan) :=
  match smLoadAndDelete m seq with
  | (none, mAfter) => (mAfter, none)
  | (some cid, mAfter) =>
      let (out, chAfter) := selectTrySend (chans cid) peer
      (mAfter, some (cid, out, chAfter))

/-- The deferred cleanup of `socketManager.Ping` (part_001 lines 162-165):
`m.inFlight.Delete(seq); close(respChan)`. -/
def pingCleanup (m : SyncMap) (seq : Int) (ch : ProbeChan) :
    SyncMap × ProbeChan :=
  (smDelete m seq, closeChan ch)

/-! ## `socketManager.Ping` (part_001 lines 146-239)

The call is embedded as a function of the socket-manager state (counter and
in-flight table) and an environment recording how each fallible external
step turned out and which of the three raced events fired first. -/

/-- Which of the three raced events of the final `select` (lines 223-238)
fired first.  `reply r` is a value received from `respChan`; the reader
only ever sends non-nil pointers, but the code also guards against a nil
value (`resp == nil`, line 225), modelled as `reply none`. -/
inductive RaceOutcome
  | reply (resp : Option IPBytes)
  | timeout
  | ctxCancelled
deriving DecidableEq, Repr

/-- Environment of one `Ping` call: outcomes of the fallible external
steps, the elapsed time measured by the monotonic clock at line 232
(non-negative, hence a `Nat` of microseconds), and whether the reader's
`LoadAndDelete` already removed the in-flight entry before the deferred
cleanup ran (the double-removal race of the claim). -/
structure PingEnv where
  marshalOk : Bool
  resolveOk : Bool
  sendOk : Bool
  outcome : RaceOutcome
  elapsedMicros : Nat
  readerTookEntry : Bool
deriving DecidableEq, Repr

/-- Result of one `Ping` call: the returned latency, the in-flight table
and counter after the call, how many `conn.WriteTo` calls were made, and
whether a sequence number was allocated (and which). -/
structure PingRet where
  latency : Option ℚ
  inFlight : SyncMap
  seqCounter : Int
  sendCalls : Nat
  seqAllocated : Bool
  seq : Int
deriving DecidableEq, Repr

/-- Lines 167-238 of `Ping`: everything between registration and the
deferred cleanup.  Returns the latency and the number of send calls. -/
def pingBody (env : PingEnv) (ip : IPBytes) : Option ℚ × Nat :=
  if !env.marshalOk then (none, 0)
  else if !env.resolveOk then (none, 0)
  else if !env.sendOk then (none, 1)
  else
    match env.outcome with
    | .reply none => (none, 1)
    | .reply (some peer) =>
        -- lines 228-233: sender verification, then fractional milliseconds
        if !ipEqual peer ip then (none, 1)
        else (some ((env.elapsedMicros : ℚ) / 1000), 1)
    | .timeout => (none, 1)
    | .ctxCancelled => (none, 1)

/-- Embedding of `socketManager.Ping`.  An unparseable address returns
immediately (lines 148-152).  Otherwise a sequence number is allocated, the
probe channel is registered, the body runs, and the deferred cleanup
removes the entry — after the reader may already have removed it. -/
def Ping (counter : Int) (inFlight : SyncMap) (chanId : Nat) (env : PingEnv)
    (ipAddr : String) : PingRet :=
  match ParseIP ipAddr with
  | none => ⟨none, inFlight, counter, 0, false, 0⟩
  | some ip =>
      let seq := allocateSeq counter
      let registered := smStore inFlight seq chanId
      let body := pingBody env ip
      let beforeCleanup :=
        if env.readerTookEntry then smDelete registered seq else registered
      ⟨body.1, smDelete beforeCleanup seq, seq, body.2, true, seq⟩

/-! ## `windowsSocketManager.Ping` (the Windows backend, lines 79-122)

The native echo syscall and its status check are abstracted into the
environment; the structure (context pre-check, `net.ParseIP` guard before
any syscall, race against cancellation) follows the code. -/

/-- Environment of one Windows `Ping` call. -/
structure WinPingEnv where
  ctxDoneAtStart : Bool
  echoOk : Bool
  statusSuccess : Bool
  rttMillis : Nat
  cancelledDuringWait : Bool
deriving DecidableEq, Repr

/-- Embedding of `windowsSocketManager.Ping`: the returned latency and the
number of native echo syscalls performed. -/
def windowsPing (env : WinPingEnv) (ipAddr : String) : Option ℚ × Nat :=
  if env.ctxDoneAtStart then (none, 0)
  else
    match ParseIP ipAddr with
    | none => (none, 0)
    | some _ =>
        let result : Option ℚ :=
          if !env.echoOk then none
          else if !env.statusSuccess then none
          else some (env.rttMillis : ℚ)
        (if env.cancelledDuringWait then none else result, 1)

/-! ## The worker-pool dispatcher (part_002, `LocationsWithFactory`)

`LocationsWithFactory` creates one pinger, fills a buffered work channel
with all locations, runs `min(workers, len(locations))` copies of
`pingWorker`, and collects one `Result` per processed location.  The
concurrency is embedded as a small state machine driven by an explicit
schedule: a worker either takes the next location from the queue (or, when
the queue is exhausted, observes the closed channel and exits), or pushes
the result of the location it holds.  With no cancellation the feeder
(lines 100-110) deposits every location into the `len(locations)`-buffered
channel without blocking and closes it, so the queue starts full and
closed; cancellation is modelled by schedules that stop early (workers that
observe `ctx.Done` return without taking or pushing). -/

/-- Worker address selection (`pingWorker`, part_002 lines 167-172). -/
def selectAddr (ipVersion : IPVersion) (loc : Location) : String :=
  if ipVersion.IsIPv6 then loc.IPv6Address else loc.IPv4Address

/-- One location's journey through a worker and the collector: the worker
calls `pinger.Ping` on the family's address and emits `Result{loc, lat}`
(lines 173-181); the collector stores the latency back into the location
(`result.Location.Latency = result.Latency`, lines 122-124). -/
def processLoc (pingFn : String → Option ℚ) (ipVersion : IPVersion)
    (loc : Location) : Location :=
  { loc with Latency := pingFn (selectAddr ipVersion loc) }

/-- A `pingWorker`'s position in its loop: waiting at the work channel,
holding a location mid-ping, or returned. -/
inductive WorkerState
  | idle
  | holding (loc : Location)
  | exited
deriving DecidableEq, Repr

/-- Pool configuration state: the not-yet-taken work-queue suffix, each
worker's position, and the results pushed so far (the `resultChan` buffer
is `len(locations)`-sized, so pushes never block and arrive in push
order). -/
structure PoolState where
  queue : List Location
  workers : List WorkerState
  results : List Location
deriving DecidableEq, Repr

/-- The worker-count clamp (part_002 lines 82-85): `numWorkers := workers;
if numWorkers > len(locations) { numWorkers = len(locations) }`.  The
worker bound is a positive count (spec §6), hence a `Nat`. -/
def numWorkers (workers : Nat) (numLocations : Nat) : Nat :=
  if numLocations < workers then numLocations else workers

/-- Pool start state: full closed queue, clamped count of idle workers. -/
def initPool (locs : List Location) (workers : Nat) : PoolState :=
  ⟨locs, List.replicate (numWorkers workers locs.length) .idle, []⟩

/-- One scheduled action of worker `i`: an idle worker receives from the
work channel — the next location if one remains, otherwise the
closed-channel signal, upon which it returns (part_002 lines 163-165); a
holding worker finishes its ping and pushes the result.  Actions of absent
or exited workers do nothing. -/
def poolStep (pingFn : String → Option ℚ) (ipVersion : IPVersion)
    (s : PoolState) (i : Nat) : PoolState :=
  match s.workers[i]? with
  | some .idle =>
      match s.queue with
      | loc :: rest =>
          { s with queue := rest, workers := s.workers.set i (.holding loc) }
      | [] => { s with workers := s.workers.set i .exited }
  | some (.holding loc) =>
      { s with
        workers := s.workers.set i .idle,
        results := s.results ++ [processLoc pingFn ipVersion loc] }
  | _ => s

/-- Run the pool under an explicit schedule of worker actions. -/
def runPool (pingFn : String → Option ℚ) (ipVersion : IPVersion)
    (s : PoolState) (sched : List Nat) : PoolState :=
  sched.foldl (poolStep pingFn ipVersion) s

/-- All workers have returned — the state in which `wg.Wait()` (line 114)
unblocks and the result channel is closed. -/
def poolDone (s : PoolState) : Prop := ∀ w ∈ s.workers, w = .exited

/-- The two hard errors `LocationsWithFactory` can return: pinger
construction failure (line 69) and `ctx.Err()` (line 144). -/
inductive GoError
  | createPingerFailed
  | contextCanceled
deriving DecidableEq, Repr

/-- What a `LocationsWithFactory` call returned, plus how many times it
invoked `factory.CreatePinger`. -/
structure DispatchRet where
  results : List Location
  error : Option GoError
  createPingerCalls : Nat
deriving DecidableEq, Repr

/-- Embedding of `LocationsWithFactory` (part_002 lines 44-148).
`factory.CreatePinger` is invoked unconditionally at line 64 — before any
check of `len(locations)` — so `createPingerCalls = 1` on every path.  On
construction failure the error propagates with no results (lines 65-70).
Otherwise the pool runs under `sched`, and the final `ctx.Err()` check
(lines 140-145) turns a sticky cancellation into `context.Canceled`
alongside whatever results were collected. -/
def LocationsWithFactory (locs : List Location) (workers : Nat)
    (pingFn : String → Option ℚ) (ipVersion : IPVersion)
    (createPingerOk : Bool) (cancelled : Bool) (sched : List Nat) :
    DispatchRet :=
  if !createPingerOk then ⟨[], some .createPingerFailed, 1⟩
  else
    let final := runPool pingFn ipVersion (initPool locs workers) sched
    ⟨final.results, if cancelled then some .contextCanceled else none, 1⟩

/-! ## Traces of the allocation subsystem (for the collision claim)

A probe registers (allocates a sequence number and stores its channel,
part_001 lines 154-159) and is outstanding until its cleanup runs.  The
trace model records, for each outstanding probe, its id, the index of its
allocation, and the sequence number it was assigned. -/

/-- A registration or a cleanup of a probe, named by caller-chosen id. -/
inductive SeqEvent
  | register (pid : Nat)
  | cleanup (pid : Nat)
deriving DecidableEq, Repr

/-- Allocation-subsystem state: the `atomic.Int32` counter, the total
number of allocations performed, and the outstanding probes as
`(probe id, allocation index, assigned sequence number)`. -/
structure SeqState where
  counter : Int
  allocCount : Nat
  outstanding : List (Nat × Nat × Int)
deriving DecidableEq, Repr

/-- Effect of one event: a registration runs `allocateSeq` and adds the
probe to the outstanding set; a cleanup removes it (`inFlight.Delete`). -/
def seqStep (s : SeqState) : SeqEvent → SeqState
  | .register pid =>
      let seq := allocateSeq s.counter
      ⟨seq, s.allocCount + 1, (pid, s.allocCount, seq) :: s.outstanding⟩
  | .cleanup pid =>
      { s with outstanding := s.outstanding.filter (fun e => e.1 != pid) }

/-- Fresh socket manager: counter zero, nothing outstanding. -/
def initSeqState : SeqState := ⟨0, 0, []⟩

/-- Run a trace of registrations and cleanups. -/
def runSeq (evs : List SeqEvent) : SeqState := evs.foldl seqStep initSeqState

/-- Churn: probe `i + 2` registers and immediately cleans up. -/
def churnPair (i : Nat) : List SeqEvent := [.register (i + 2), .cleanup (i + 2)]

/-- The collision trace: probe 0 registers and stays outstanding; `n`
short-lived probes churn through the counter; probe 1 then registers. -/
def churnTrace (n : Nat) : List SeqEvent :=
  .register 0 :: ((List.range n).flatMap churnPair ++ [.register 1])

/-! ## Auxiliary notions used by the invariant proofs -/

/-- The location a worker holds, if any. -/
def heldOf : WorkerState → List Location
  | .holding loc => [loc]
  | _ => []

/-- All locations currently held by workers. -/
def heldLocs (ws : List WorkerState) : List Location := ws.flatMap heldOf

/-- The multiset of processed locations a pool state accounts for: results
already pushed, plus queued and held locations still to be processed. -/
def poolMeasure (pingFn : String → Option ℚ) (ipVersion : IPVersion)
    (s : PoolState) : Multiset Location :=
  ↑s.results
    + ((↑s.queue + (↑(heldLocs s.workers) : Multiset Location)).map
        (processLoc pingFn ipVersion))

/-- Once some worker has exited, the queue is empty (a worker only exits
on observing the closed, drained work channel, and the queue never
grows). -/
def exitInv (s : PoolState) : Prop :=
  (∃ w ∈ s.workers, w = .exited) → s.queue = []

/-- Invariant of the allocation subsystem: the counter is the wrapped
allocation count, and every outstanding probe's sequence number is the
wrap of its allocation index plus one. -/
def SeqInv (s : SeqState) : Prop :=
  s.counter = int32wrap s.allocCount
    ∧ ∀ e ∈ s.outstanding,
        e.2.2 = int32wrap (e.2.1 + 1) ∧ e.2.1 < s.allocCount

instance decidablePoolDone (s : PoolState) : Decidable (poolDone s) := by
  unfold poolDone
  exact List.decidableBAll _ _

/-- A sample relay location used for concrete instantiations. -/
def locSweden : Location :=
  ⟨"185.65.134.1", "2a03:1b20:1:f011::a01f", "Sweden", 59, 18,
    "se-sto-wg-001", "wireguard", "Stockholm", true, true, "31173", none, none⟩

/-- A second sample relay location. -/
def locNorway : Location :=
  ⟨"146.70.116.98", "", "Norway", 59, 10,
    "no-osl-wg-001", "wireguard", "Oslo", true, false, "Blix", none, none⟩

/-- A sample location with no IPv4 address. -/
def locNoV4 : Location :=
  ⟨"", "2a03:1b20:1:f011::a02f", "Sweden", 59, 18,
    "se-sto-wg-002", "wireguard", "Stockholm", true, true, "31173", none, none⟩

/-! ## Sanity checks of the `net.ParseIP` embedding -/

example : ParseIP "" = none := by decide
example : ParseIP "127.0.0.1" =
    some [0, 0, 0, 0, 0, 0, 0, 0, 0, 0, 255, 255, 127, 0, 0, 1] := by decide
example : ParseIP "01.2.3.4" = none := by decide
example : ParseIP "256.1.1.1" = none := by decide
example : ParseIP "1.2.3" = none := by decide
example : ParseIP "1.2.3.4.5" = none := by decide
example : ParseIP "::1" =
    some [0, 0, 0, 0, 0, 0, 0, 0, 0, 0, 0, 0, 0, 0, 0, 1] := by decide
example : ParseIP "::" = some (List.replicate 16 0) := by decide
example : ParseIP "2a03:1b20:1:f011::a01f" =
    some [0x2a, 0x03, 0x1b, 0x20, 0, 1, 0xf0, 0x11, 0, 0, 0, 0, 0, 0, 0xa0, 0x1f] := by
  decide
example : ParseIP "::ffff:1.2.3.4" =
    some [0, 0, 0, 0, 0, 0, 0, 0, 0, 0, 255, 255, 1, 2, 3, 4] := by decide
example : ParseIP "1::2::3" = none := by decide
example : ParseIP "fe80::1%eth0" = none := by decide
example : ParseIP "not an ip" = none := by decide
example : ParseIP "1:2:3:4:5:6:7:8:9" = none := by decide
example : ParseIP "1:2:3:4:5:6:7:8" =
    some [0, 1, 0, 2, 0, 3, 0, 4, 0, 5, 0, 6, 0, 7, 0, 8] := by decide

/-! ## Helper lemmas: the in-flight table -/

/-- After `Delete k`, no entry for `k` remains. -/
lemma smFind_smDelete_self (m : SyncMap) (k : Int) :
    smFind (smDelete m k) k = none := by
  induction m with
  | nil => rfl
  | cons p t ih =>
      by_cases hp : p.1 = k
      · simp [smDelete, smFind, hp] at ih ⊢
      · simp [smDelete, smFind, hp] at ih ⊢

/-- `Delete` is idempotent: deleting an already-deleted key changes
nothing. -/
lemma smDelete_idem (m : SyncMap) (k : Int) :
    smDelete (smDelete m k) k = smDelete m k := by
  simp [smDelete, List.filter_filter]

/-! ## Helper lemmas: 32-bit wrapping -/

/-- Two integers wrap to the same `int32` value exactly when they agree
modulo 2^32. -/
lemma int32wrap_eq_iff (a b : Int) :
    int32wrap a = int32wrap b ↔ a % 2 ^ 32 = b % 2 ^ 32 := by
  unfold int32wrap
  constructor <;> intro h <;> omega

/-- Re-wrapping after an increment is the same as wrapping the incremented
pre-image: the counter's value after `n + 1` `Add(1)` calls. -/
lemma int32wrap_succ (n : Int) :
    int32wrap (int32wrap n + 1) = int32wrap (n + 1) := by
  simp only [int32wrap]
  omega

/-! ## Helper lemmas: the worker pool -/

/-- Replacing worker `i`'s state exchanges its held location: as multisets,
held-after plus old-hold equals held-before plus new-hold. -/
lemma heldLocs_set (ws : List WorkerState) (i : Nat) (new old : WorkerState)
    (h : ws[i]? = some old) :
    (↑(heldLocs (ws.set i new)) : Multiset Location) + ↑(heldOf old)
      = ↑(heldLocs ws) + ↑(heldOf new) := by
  induction ws generalizing i with
  | nil => simp at h
  | cons a t ih =>
      cases i with
      | zero =>
          simp only [List.getElem?_cons_zero, Option.some.injEq] at h
          subst h
          simp only [List.set_cons_zero, heldLocs, List.flatMap_cons,
            ← Multiset.coe_add]
          abel
      | succ n =>
          simp only [List.getElem?_cons_succ] at h
          simp only [List.set_cons_succ, heldLocs, List.flatMap_cons,
            ← Multiset.coe_add]
          have hih := ih n h
          simp only [heldLocs] at hih
          rw [add_assoc, add_assoc, hih]

/-- Workers that have all exited hold nothing. -/
lemma heldLocs_of_all_exited (ws : List WorkerState)
    (h : ∀ w ∈ ws, w = .exited) : heldLocs ws = [] := by
  induction ws with
  | nil => rfl
  | cons a t ih =>
      have ha := h a (by simp)
      subst ha
      simp only [heldLocs, List.flatMap_cons]
      have : heldLocs t = [] := ih fun w hw => h w (by simp [hw])
      simpa [heldOf, heldLocs] using this

/-- One pool step conserves the processed-location multiset. -/
lemma poolStep_measure (pingFn : String → Option ℚ) (ipVersion : IPVersion)
    (s : PoolState) (i : Nat) :
    poolMeasure pingFn ipVersion (poolStep pingFn ipVersion s i)
      = poolMeasure pingFn ipVersion s := by
  unfold poolStep
  rcases hw : s.workers[i]? with _ | w
  · simp [hw]
  · cases w with
    | idle =>
        cases hq : s.queue with
        | nil =>
            have hset := heldLocs_set s.workers i .exited .idle hw
            simp only [heldOf] at hset
            simp only [Multiset.coe_nil, add_zero] at hset
            simp only [hw, hq, poolMeasure]
            rw [hset]
        | cons loc rest =>
            have hset := heldLocs_set s.workers i (.holding loc) .idle hw
            simp only [heldOf] at hset
            simp only [Multiset.coe_nil, add_zero] at hset
            simp only [hw, hq, poolMeasure]
            rw [hset]
            have harg :
                (↑rest + (↑(heldLocs s.workers) + ↑[loc]) : Multiset Location)
                  = ↑(loc :: rest) + ↑(heldLocs s.workers) := by
              simp only [← Multiset.cons_coe, ← Multiset.singleton_add,
                Multiset.coe_singleton]
              abel
            rw [harg]
    | holding loc =>
        have hset := heldLocs_set s.workers i .idle (.holding loc) hw
        simp only [heldOf] at hset
        simp only [Multiset.coe_nil, add_zero] at hset
        simp only [hw, poolMeasure]
        rw [← hset]
        simp only [← Multiset.coe_add, Multiset.map_add, Multiset.map_coe,
          List.map_cons, List.map_nil]
        abel
    | exited => simp [hw]

/-- A whole scheduled run conserves the processed-location multiset. -/
lemma runPool_measure (pingFn : String → Option ℚ) (ipVersion : IPVersion)
    (s : PoolState) (sched : List Nat) :
    poolMeasure pingFn ipVersion (runPool pingFn ipVersion s sched)
      = poolMeasure pingFn ipVersion s := by
  induction sched generalizing s with
  | nil => rfl
  | cons i rest ih =>
      simp only [runPool, List.foldl_cons] at ih ⊢
      rw [ih, poolStep_measure]

/-- One pool step preserves the exited-implies-drained invariant. -/
lemma poolStep_exitInv (pingFn : String → Option ℚ) (ipVersion : IPVersion)
    (s : PoolState) (i : Nat) (h : exitInv s) :
    exitInv (poolStep pingFn ipVersion s i) := by
  unfold poolStep
  rcases hw : s.workers[i]? with _ | w
  · simp only [hw]
    exact h
  · cases w with
    | idle =>
        cases hq : s.queue with
        | nil =>
            simp only [hw, hq]
            intro _
            rfl
        | cons loc rest =>
            simp only [hw, hq]
            rintro ⟨w, hwmem, hwex⟩
            rcases List.mem_or_eq_of_mem_set hwmem with hmem | heq
            · have hq0 := h ⟨w, hmem, hwex⟩
              rw [hq] at hq0
              cases hq0
            · rw [heq] at hwex
              cases hwex
    | holding loc =>
        simp only [hw]
        rintro ⟨w, hwmem, hwex⟩
        rcases List.mem_or_eq_of_mem_set hwmem with hmem | heq
        · exact h ⟨w, hmem, hwex⟩
        · rw [heq] at hwex
          cases hwex
    | exited =>
        simp only [hw]
        exact h

/-- A whole run preserves the exited-implies-drained invariant. -/
lemma runPool_exitInv (pingFn : String → Option ℚ) (ipVersion : IPVersion)
    (s : PoolState) (sched : List Nat) (h : exitInv s) :
    exitInv (runPool pingFn ipVersion s sched) := by
  induction sched generalizing s with
  | nil => exact h
  | cons i rest ih =>
      simp only [runPool, List.foldl_cons] at ih ⊢
      exact ih _ (poolStep_exitInv _ _ _ _ h)

/-- Pool steps never change the number of workers. -/
lemma poolStep_workers_length (pingFn : String → Option ℚ)
    (ipVersion : IPVersion) (s : PoolState) (i : Nat) :
    (poolStep pingFn ipVersion s i).workers.length = s.workers.length := by
  unfold poolStep
  rcases hw : s.workers[i]? with _ | w
  · simp
  · cases w with
    | idle =>
        cases hq : s.queue with
        | nil => simp
        | cons loc rest => simp
    | holding loc => simp
    | exited => simp

/-- A whole run never changes the number of workers. -/
lemma runPool_workers_length (pingFn : String → Option ℚ)
    (ipVersion : IPVersion) (s : PoolState) (sched : List Nat) :
    (runPool pingFn ipVersion s sched).workers.length = s.workers.length := by
  induction sched generalizing s with
  | nil => rfl
  | cons i rest ih =>
      simp only [runPool, List.foldl_cons] at ih ⊢
      rw [ih, poolStep_workers_length]

/-- Freshly started workers hold nothing. -/
lemma heldLocs_replicate_idle (n : Nat) :
    heldLocs (List.replicate n .idle) = [] := by
  induction n with
  | zero => rfl
  | succ k ih =>
      simp only [List.replicate_succ, heldLocs, List.flatMap_cons, heldOf]
      simpa [heldLocs] using ih

/-- The workhorse: if at least one worker was started and every worker has
exited, the results are a permutation of the processed input list. -/
lemma runPool_done_perm (pingFn : String → Option ℚ) (ipVersion : IPVersion)
    (locs : List Location) (workers : Nat) (sched : List Nat)
    (hW : 1 ≤ numWorkers workers locs.length)
    (hdone : poolDone (runPool pingFn ipVersion (initPool locs workers) sched)) :
    (runPool pingFn ipVersion (initPool locs workers) sched).results.Perm
      (locs.map (processLoc pingFn ipVersion)) := by
  set fin := runPool pingFn ipVersion (initPool locs workers) sched with hfin
  -- some worker exists and has exited, so the queue is drained
  have hlen : fin.workers.length = numWorkers workers locs.length := by
    rw [hfin, runPool_workers_length]
    simp [initPool]
  have hne : fin.workers ≠ [] := by
    intro hnil
    rw [hnil] at hlen
    simp at hlen
    omega
  have hex : ∃ w ∈ fin.workers, w = .exited := by
    rcases List.exists_cons_of_ne_nil hne with ⟨w, t, hwt⟩
    exact ⟨w, by simp [hwt], hdone w (by simp [hwt])⟩
  have hqinv : exitInv fin := by
    rw [hfin]
    apply runPool_exitInv
    intro hex0
    rcases hex0 with ⟨w, hwmem, hwe⟩
    simp only [initPool] at hwmem
    have := List.eq_of_mem_replicate hwmem
    rw [this] at hwe
    exact absurd hwe (by intro h; cases h)
  have hq : fin.queue = [] := hqinv hex
  have hheld : heldLocs fin.workers = [] := heldLocs_of_all_exited _ hdone
  have hmeas := runPool_measure pingFn ipVersion (initPool locs workers) sched
  rw [← hfin] at hmeas
  unfold poolMeasure at hmeas
  simp only [initPool, heldLocs_replicate_idle] at hmeas
  rw [hq, hheld] at hmeas
  simp only [Multiset.coe_nil, add_zero, zero_add, Multiset.map_zero,
    Multiset.map_coe] at hmeas
  exact Multiset.coe_eq_coe.mp hmeas

/-- From an empty location list no run produces any result. -/
lemma runPool_nil_results (pingFn : String → Option ℚ) (ipVersion : IPVersion)
    (workers : Nat) (sched : List Nat) :
    (runPool pingFn ipVersion (initPool [] workers) sched).results = [] := by
  have hmeas := runPool_measure pingFn ipVersion (initPool [] workers) sched
  unfold poolMeasure at hmeas
  simp only [initPool, heldLocs_replicate_idle, Multiset.coe_nil, add_zero,
    zero_add, Multiset.map_zero] at hmeas
  have h0 : (↑(runPool pingFn ipVersion (initPool [] workers) sched).results
      : Multiset Location) = 0 := by
    rcases add_eq_zero_iff_of_nonneg (by positivity) (by positivity) |>.mp hmeas
      with ⟨h1, -⟩
    exact h1
  simpa using h0

/-! ## Helper lemmas: the allocation trace -/

/-- One event preserves the allocation invariant. -/
lemma seqStep_inv {s : SeqState} (hs : SeqInv s) (e : SeqEvent) :
    SeqInv (seqStep s e) := by
  obtain ⟨hc, hout⟩ := hs
  cases e with
  | register pid =>
      refine ⟨?_, ?_⟩
      · simp only [seqStep, allocateSeq, hc]
        push_cast
        rw [int32wrap_succ]
      · intro e he
        rcases List.mem_cons.mp he with he | he
        · subst he
          refine ⟨?_, by show s.allocCount < s.allocCount + 1; omega⟩
          simp only [allocateSeq, hc]
          push_cast
          rw [int32wrap_succ]
        · rcases hout e he with ⟨h1, h2⟩
          refine ⟨h1, ?_⟩
          simp only [seqStep]
          omega
  | cleanup pid =>
      refine ⟨hc, ?_⟩
      intro e he
      exact hout e (List.mem_of_mem_filter he)

/-- Every reachable allocation state satisfies the invariant. -/
lemma runSeq_inv (evs : List SeqEvent) : SeqInv (runSeq evs) := by
  suffices h : ∀ s : SeqState, SeqInv s → SeqInv (evs.foldl seqStep s) by
    apply h
    refine ⟨?_, by simp [initSeqState]⟩
    simp [initSeqState, int32wrap]
  induction evs with
  | nil => exact fun s hs => hs
  | cons e rest ih =>
      intro s hs
      exact ih _ (seqStep_inv hs e)

/-- Closed form of the churn: after probe 0 registers, `k` churn rounds
leave only probe 0 outstanding and advance the counter to `wrap (k+1)`. -/
lemma churn_foldl (k : Nat) :
    ((List.range k).flatMap churnPair).foldl seqStep ⟨1, 1, [(0, 0, 1)]⟩
      = ⟨int32wrap ((k : Int) + 1), k + 1, [(0, 0, 1)]⟩ := by
  induction k with
  | zero =>
      simp only [List.range_zero, List.flatMap_nil, List.foldl_nil]
      norm_num [int32wrap]
  | succ n ih =>
      rw [List.range_succ, List.flatMap_append, List.foldl_append, ih]
      simp only [churnPair, List.flatMap_cons, List.flatMap_nil,
        List.append_nil, List.foldl_cons, List.foldl_nil, seqStep,
        allocateSeq]
      rw [int32wrap_succ]
      simp only [SeqState.mk.injEq]
      refine ⟨?_, ?_, ?_⟩
      · first
        | trivial
        | (push_cast; ring_nf)
      · first
        | trivial
        | omega
      · simp [List.filter_cons]

/-- The full collision trace: probe 0 keeps sequence number 1; after `n`
churn rounds probe 1 registers and receives the wrap of `n + 2`. -/
lemma runSeq_churnTrace (n : Nat) :
    runSeq (churnTrace n)
      = ⟨int32wrap ((n : Int) + 2), n + 2,
         [(1, n + 1, int32wrap ((n : Int) + 2)), (0, 0, 1)]⟩ := by
  unfold runSeq churnTrace
  rw [List.foldl_cons]
  have h0 : seqStep initSeqState (.register 0) = ⟨1, 1, [(0, 0, 1)]⟩ := by
    simp only [seqStep, initSeqState, allocateSeq]
    norm_num [int32wrap]
  rw [h0, List.foldl_append, churn_foldl]
  simp only [List.foldl_cons, List.foldl_nil, seqStep, allocateSeq]
  rw [int32wrap_succ,
    show ((n : Int) + 1 + 1) = ((n : Int) + 2) from by ring]

/-! ## The claims -/

/-- Claim C1: for an empty target list `LocationsWithFactory` does return
an empty result set and a nil error, but it does NOT perform zero
pinger-construction calls: `factory.CreatePinger` runs unconditionally at
part_002 line 64, before any emptiness check, so exactly one construction
call happens.  (The repository's own unit test
`TestPingLocationsWithFactory_EmptyLocations` asserts zero calls, so the
code contradicts its own test.) -/
theorem C1_empty_list_constructs_pinger (workers : Nat)
    (pingFn : String → Option ℚ) (ipVersion : IPVersion) (sched : List Nat) :
    (LocationsWithFactory [] workers pingFn ipVersion true false sched).results
        = []
    ∧ (LocationsWithFactory [] workers pingFn ipVersion true false sched).error
        = none
    ∧ (LocationsWithFactory [] workers pingFn ipVersion true false
        sched).createPingerCalls = 1 :=
  ⟨runPool_nil_results pingFn ipVersion workers sched, rfl, rfl⟩

/-- Claim C2: the reader's delivery to a probe channel is NOT panic-free.
In the interleaving below the reader's `LoadAndDelete` wins the race for
the in-flight entry, the probe's wait then completes and its deferred
cleanup closes the channel, and the reader's delivery `select` finally
executes: per the Go specification a send on a closed channel proceeds by
panicking, so the ready send case is chosen over `default` and panics the
reader — contradicting the code's own comment at part_001 line 140,
`Channel full or closed, ignore`. -/
theorem C2_reader_delivery_can_panic :
    (smLoadAndDelete [(5, 0)] 5).1 = some 0
    ∧ (pingCleanup (smLoadAndDelete [(5, 0)] 5).2 5 ⟨false, none⟩).2.closed
        = true
    ∧ (selectTrySend (pingCleanup (smLoadAndDelete [(5, 0)] 5).2 5
        ⟨false, none⟩).2
        [0, 0, 0, 0, 0, 0, 0, 0, 0, 0, 255, 255, 10, 0, 0, 1]).1
        = .panicked := by
  refine ⟨by decide, rfl, rfl⟩

/-- Claim C5: an address string that does not parse as an IP literal makes
`socketManager.Ping` return absent immediately with no socket I/O — the
in-flight table and sequence counter are untouched (no allocation, no
registration) and zero send calls occur — and likewise makes the Windows
backend return absent with zero echo syscalls. -/
theorem C5_unparseable_address_no_io (counter : Int) (inFlight : SyncMap)
    (chanId : Nat) (env : PingEnv) (wenv : WinPingEnv) (ipAddr : String)
    (h : ParseIP ipAddr = none) :
    Ping counter inFlight chanId env ipAddr
      = ⟨none, inFlight, counter, 0, false, 0⟩
    ∧ windowsPing wenv ipAddr = (none, 0) := by
  constructor
  · unfold Ping
    rw [h]
  · unfold windowsPing
    split
    · rfl
    · rw [h]

/-- Claim C5 witness: the empty address string, at a concrete manager
state with one unrelated in-flight probe. -/
theorem C5_witness :
    ParseIP "" = none
    ∧ Ping 0 [(3, 9)] 7 ⟨true, true, true, .timeout, 0, false⟩ ""
        = ⟨none, [(3, 9)], 0, 0, false, 0⟩
    ∧ windowsPing ⟨false, true, true, 5, false⟩ "" = (none, 0) := by
  refine ⟨by decide, ?_, ?_⟩
  · exact (C5_unparseable_address_no_io 0 [(3, 9)] 7
      ⟨true, true, true, .timeout, 0, false⟩ ⟨false, true, true, 5, false⟩
      "" (by decide)).1
  · exact (C5_unparseable_address_no_io 0 [(3, 9)] 7
      ⟨true, true, true, .timeout, 0, false⟩ ⟨false, true, true, 5, false⟩
      "" (by decide)).2

/-- Claim C6: for every target list of length K and worker bound W the
dispatcher starts exactly `min(W, K)` workers — never more workers than
targets. -/
theorem C6_worker_clamp (workers : Nat) (locs : List Location) :
    numWorkers workers locs.length = min workers locs.length
    ∧ (initPool locs workers).workers.length = min workers locs.length
    ∧ (initPool locs workers).workers.length ≤ locs.length := by
  refine ⟨?_, ?_, ?_⟩ <;>
    simp only [numWorkers, initPool, List.length_replicate] <;>
    split <;> omega

/-- Claim C8: once the pinger is constructed, the dispatcher's returned
error is the context's cancellation exactly when the context was cancelled
during the run (the sticky `ctx.Err()` observed at part_002 lines 140-145),
and nil when it was not; the results collected so far are returned in
either case, and the error never depends on individual probe outcomes. -/
theorem C8_cancellation_surfaced (locs : List Location) (workers : Nat)
    (pingFn pingFnB : String → Option ℚ) (ipVersion : IPVersion)
    (cancelled : Bool) (sched : List Nat) :
    (LocationsWithFactory locs workers pingFn ipVersion true cancelled
        sched).error
      = (if cancelled then some .contextCanceled else none)
    ∧ (LocationsWithFactory locs workers pingFn ipVersion true cancelled
        sched).results
      = (runPool pingFn ipVersion (initPool locs workers) sched).results
    ∧ (LocationsWithFactory locs workers pingFn ipVersion true cancelled
        sched).error
      = (LocationsWithFactory locs workers pingFnB ipVersion true cancelled
        sched).error :=
  ⟨rfl, rfl, rfl⟩

/-- Claim C3: on every exit path of `socketManager.Ping` — for every
outcome of marshalling, address resolution, sending, and the reply /
timeout / cancellation race — the in-flight entry registered for the
allocated sequence number is gone from the table when the call returns,
and the deferred removal is idempotent: the final table is identical
whether or not the reader already removed the entry. -/
theorem C3_cleanup_on_every_exit_path (counter : Int) (inFlight : SyncMap)
    (chanId : Nat) (env : PingEnv) (ipAddr : String) :
    ((Ping counter inFlight chanId env ipAddr).seqAllocated = true →
      smFind (Ping counter inFlight chanId env ipAddr).inFlight
        (Ping counter inFlight chanId env ipAddr).seq = none)
    ∧ (Ping counter inFlight chanId
          { env with readerTookEntry := true } ipAddr).inFlight
      = (Ping counter inFlight chanId
          { env with readerTookEntry := false } ipAddr).inFlight := by
  unfold Ping
  rcases hp : ParseIP ipAddr with - | ip
  · exact ⟨(fun h => nomatch h), rfl⟩
  · refine ⟨fun _ => smFind_smDelete_self _ _, ?_⟩
    simp [smDelete_idem]

/-- Claim C3 witness: a concrete timed-out probe to 10.0.0.1 from a
manager with one unrelated in-flight entry. -/
theorem C3_witness :
    (Ping 0 [(9, 4)] 7 ⟨true, true, true, .timeout, 0, false⟩
        "10.0.0.1").seqAllocated = true
    ∧ smFind (Ping 0 [(9, 4)] 7 ⟨true, true, true, .timeout, 0, false⟩
        "10.0.0.1").inFlight
        (Ping 0 [(9, 4)] 7 ⟨true, true, true, .timeout, 0, false⟩
          "10.0.0.1").seq = none
    ∧ (Ping 0 [(9, 4)] 7 ⟨true, true, true, .timeout, 0, true⟩
        "10.0.0.1").inFlight
      = (Ping 0 [(9, 4)] 7 ⟨true, true, true, .timeout, 0, false⟩
        "10.0.0.1").inFlight := by
  refine ⟨by decide, ?_, ?_⟩
  · exact (C3_cleanup_on_every_exit_path 0 [(9, 4)] 7
      ⟨true, true, true, .timeout, 0, false⟩ "10.0.0.1").1 (by decide)
  · exact (C3_cleanup_on_every_exit_path 0 [(9, 4)] 7
      ⟨true, true, true, .timeout, 0, false⟩ "10.0.0.1").2

/-- Claim C4: when a probe's wait is won by a reply notification, a reply
whose sender does not equal the targeted IP yields absent, and a reply
whose sender equals the targeted IP yields the elapsed time of the
monotonic clock since just before the send, as the non-negative rational
`microseconds / 1000` — fractional milliseconds. -/
theorem C4_reply_sender_verification (counter : Int) (inFlight : SyncMap)
    (chanId : Nat) (env : PingEnv) (ipAddr : String) (ip peer : IPBytes)
    (hip : ParseIP ipAddr = some ip)
    (hm : env.marshalOk = true) (hr : env.resolveOk = true)
    (hs : env.sendOk = true) (hout : env.outcome = .reply (some peer)) :
    (ipEqual peer ip = false →
      (Ping counter inFlight chanId env ipAddr).latency = none)
    ∧ (ipEqual peer ip = true →
      (Ping counter inFlight chanId env ipAddr).latency
        = some ((env.elapsedMicros : ℚ) / 1000)
      ∧ 0 ≤ ((env.elapsedMicros : ℚ) / 1000)) := by
  unfold Ping pingBody
  rw [hip, hm, hr, hs, hout]
  constructor
  · intro hne
    simp [hne]
  · intro heq
    refine ⟨by simp [heq], by positivity⟩

/-- Claim C4 witness: a probe to 127.0.0.1 answered by 127.0.0.1 after
2500 microseconds measures 2.5 milliseconds. -/
theorem C4_witness :
    ParseIP "127.0.0.1"
        = some [0, 0, 0, 0, 0, 0, 0, 0, 0, 0, 255, 255, 127, 0, 0, 1]
    ∧ (Ping 0 [] 3 ⟨true, true, true,
        .reply (some [0, 0, 0, 0, 0, 0, 0, 0, 0, 0, 255, 255, 127, 0, 0, 1]),
        2500, false⟩ "127.0.0.1").latency = some ((2500 : ℚ) / 1000) := by
  refine ⟨by decide, ?_⟩
  exact ((C4_reply_sender_verification 0 [] 3
    ⟨true, true, true,
      .reply (some [0, 0, 0, 0, 0, 0, 0, 0, 0, 0, 255, 255, 127, 0, 0, 1]),
      2500, false⟩
    "127.0.0.1" [0, 0, 0, 0, 0, 0, 0, 0, 0, 0, 255, 255, 127, 0, 0, 1]
    [0, 0, 0, 0, 0, 0, 0, 0, 0, 0, 255, 255, 127, 0, 0, 1]
    (by decide) rfl rfl rfl rfl).2 (by decide)).1

/-- Claim C7: with a worker bound `1 ≤ W < K` and no cancellation, any
completed dispatcher run (every worker exited) returns exactly K results —
a permutation of the K input targets, each carrying its identity with the
probe's latency (or absent) stored — and a nil error. -/
theorem C7_one_result_per_target (locs : List Location) (workers : Nat)
    (pingFn : String → Option ℚ) (ipVersion : IPVersion) (sched : List Nat)
    (hW : 1 ≤ workers) (hWK : workers < locs.length)
    (hdone : poolDone
      (runPool pingFn ipVersion (initPool locs workers) sched)) :
    (LocationsWithFactory locs workers pingFn ipVersion true false
        sched).results.length = locs.length
    ∧ (LocationsWithFactory locs workers pingFn ipVersion true false
        sched).results.Perm (locs.map (processLoc pingFn ipVersion))
    ∧ (LocationsWithFactory locs workers pingFn ipVersion true false
        sched).error = none := by
  have hmin : 1 ≤ numWorkers workers locs.length := by
    unfold numWorkers
    split <;> omega
  have hperm := runPool_done_perm pingFn ipVersion locs workers sched hmin
    hdone
  refine ⟨?_, hperm, rfl⟩
  have hlen := hperm.length_eq
  simpa using hlen

/-- Claim C7 witness: two targets, one worker, a schedule that drains the
queue; both targets come back, in completion order, with the mock
10 ms latency. -/
theorem C7_witness :
    1 ≤ 1 ∧ 1 < [locSweden, locNorway].length
    ∧ poolDone (runPool (fun _ => some 10) .IPv4
        (initPool [locSweden, locNorway] 1) [0, 0, 0, 0, 0])
    ∧ (LocationsWithFactory [locSweden, locNorway] 1 (fun _ => some 10)
        .IPv4 true false [0, 0, 0, 0, 0]).results.length = 2
    ∧ (LocationsWithFactory [locSweden, locNorway] 1 (fun _ => some 10)
        .IPv4 true false [0, 0, 0, 0, 0]).results.Perm
        ([locSweden, locNorway].map (processLoc (fun _ => some 10) .IPv4)) := by
  have h := C7_one_result_per_target [locSweden, locNorway] 1
    (fun _ => some 10) .IPv4 [0, 0, 0, 0, 0] (by decide) (by decide)
    (by decide)
  exact ⟨by decide, by decide, by decide, h.1, h.2.1⟩

/-- Claim C9 counterexample: the sequence counter is a wrapping 32-bit
atomic, so the claim fails at this concrete trace: probe 0 registers and
receives sequence number 1; 2^32 - 1 short-lived probes churn through the
counter; probe 1 then registers and receives sequence number 1 as well,
while probe 0 is still outstanding — two simultaneously outstanding probes
with the same sequence number. -/
theorem C9_counterexample :
    (0, 0, (1 : Int)) ∈ (runSeq (churnTrace (2 ^ 32 - 1))).outstanding
    ∧ (1, 2 ^ 32, (1 : Int)) ∈ (runSeq (churnTrace (2 ^ 32 - 1))).outstanding := by
  rw [runSeq_churnTrace]
  have h1 : int32wrap (((2 ^ 32 - 1 : Nat) : Int) + 2) = 1 := by
    norm_num [int32wrap]
  rw [h1]
  have h2 : (2 ^ 32 - 1 : Nat) + 1 = 2 ^ 32 := by norm_num
  rw [h2]
  exact ⟨by simp, by simp⟩

/-- Claim C9 (amended): sequence allocation is atomic, and any two probes
simultaneously outstanding after any trace of registrations and cleanups
carry distinct sequence numbers, provided their allocation indices are
fewer than 2^32 apart — the counter wraps modulo 2^32, so only after 2^32
intervening allocations can a sequence number recur. -/
theorem C9_no_collision_within_window (evs : List SeqEvent)
    (p i q j : Nat) (s1 s2 : Int)
    (h1 : (p, i, s1) ∈ (runSeq evs).outstanding)
    (h2 : (q, j, s2) ∈ (runSeq evs).outstanding)
    (hij : i ≠ j) (hw1 : i < j + 2 ^ 32) (hw2 : j < i + 2 ^ 32) :
    s1 ≠ s2 := by
  have hinv := runSeq_inv evs
  have e1 := hinv.2 _ h1
  have e2 := hinv.2 _ h2
  simp only at e1 e2
  intro hs
  rw [e1.1, e2.1] at hs
  rw [int32wrap_eq_iff] at hs
  omega

/-- Claim C9 (amended) witness: two probes registered back to back are
both outstanding and carry the distinct sequence numbers 1 and 2. -/
theorem C9_witness :
    (0, 0, (1 : Int)) ∈ (runSeq [.register 0, .register 1]).outstanding
    ∧ (1, 1, (2 : Int)) ∈ (runSeq [.register 0, .register 1]).outstanding
    ∧ (1 : Int) ≠ 2 := by
  refine ⟨by decide, by decide, ?_⟩
  exact C9_no_collision_within_window [.register 0, .register 1]
    0 0 1 1 1 2 (by decide) (by decide) (by decide) (by decide) (by decide)

/-- Claim C10: a target whose address for the requested family is the
empty string is still handed to `Ping`, which returns absent because the
empty string does not parse as an IP, and the target still appears in a
completed run's result set with an absent latency — neither skipped nor an
error. -/
theorem C10_missing_family_address (locs : List Location) (workers : Nat)
    (sched : List Nat) (counter : Int) (inFlight : SyncMap) (chanId : Nat)
    (env : PingEnv) (ipVersion : IPVersion) (loc : Location)
    (haddr : selectAddr ipVersion loc = "")
    (hmem : loc ∈ locs)
    (hW : 1 ≤ workers)
    (hdone : poolDone
      (runPool (fun a => (Ping counter inFlight chanId env a).latency)
        ipVersion (initPool locs workers) sched)) :
    { loc with Latency := none }
      ∈ (LocationsWithFactory locs workers
          (fun a => (Ping counter inFlight chanId env a).latency)
          ipVersion true false sched).results := by
  have hmin : 1 ≤ numWorkers workers locs.length := by
    unfold numWorkers
    have : 1 ≤ locs.length := List.length_pos.mpr (List.ne_nil_of_mem hmem)
    split <;> omega
  have hperm := runPool_done_perm
    (fun a => (Ping counter inFlight chanId env a).latency)
    ipVersion locs workers sched hmin hdone
  have hproc : processLoc
      (fun a => (Ping counter inFlight chanId env a).latency) ipVersion loc
      = { loc with Latency := none } := by
    unfold processLoc
    rw [haddr]
    have hparse : ParseIP "" = none := by decide
    simp [Ping, hparse]
  have hmemmap : processLoc
      (fun a => (Ping counter inFlight chanId env a).latency) ipVersion loc
      ∈ locs.map (processLoc
        (fun a => (Ping counter inFlight chanId env a).latency) ipVersion) :=
    List.mem_map_of_mem _ hmem
  rw [hproc] at hmemmap
  exact hperm.mem_iff.mpr hmemmap

/-- Claim C10 witness: a target with no IPv4 address, scanned over IPv4 by
one worker, appears in the results with absent latency. -/
theorem C10_witness :
    selectAddr .IPv4 locNoV4 = ""
    ∧ { locNoV4 with Latency := none }
      ∈ (LocationsWithFactory [locNoV4] 1
          (fun a => (Ping 0 [] 7 ⟨true, true, true, .timeout, 0, false⟩
            a).latency)
          .IPv4 true false [0, 0, 0]).results := by
  refine ⟨by decide, ?_⟩
  exact C10_missing_family_address [locNoV4] 1 [0, 0, 0] 0 [] 7
    ⟨true, true, true, .timeout, 0, false⟩ .IPv4 locNoV4
    (by decide) (by decide) (by decide) (by decide)

end MullvadCompass
